import Mathlib

/-!
# moegirlwiki command-line client: model of `main.go` and its properties

A Go `string` is a sequence of bytes; `len`, slicing and `strings.Index` all
work on byte offsets.  Standard-library calls the program makes
(`strings.Index`, `url.Values`, `url.QueryEscape`, `strconv.Atoi`, `%d`
formatting) are modelled after their documented behaviour; the network and the
JSON decoder are inputs of the model.
-/

set_option autoImplicit false
set_option maxRecDepth 8192

namespace Moegirl

/-! ## Go strings -/

/-- A Go string: an immutable sequence of bytes. -/
abbrev GoString := List UInt8

/-- The bytes of a string literal of the source file (Go source is UTF-8). -/
def utf8 (s : String) : GoString := s.data.flatMap String.utf8EncodeChar

/-- The byte `<` (0x3C). -/
def LT : UInt8 := 60

/-- The byte `>` (0x3E). -/
def GT : UInt8 := 62

/-- Search core of `strings.Index`: the offset of the first position of `s`
at which `sub` occurs, if there is one. -/
def indexOpt (sub : GoString) : GoString → Option Nat
  | [] => if sub = [] then some 0 else none
  | c :: cs =>
    if sub.isPrefixOf (c :: cs) then some 0
    else (indexOpt sub cs).map (· + 1)

/-- `strings.Index(s, sub)`: the index of the first instance of `sub` in `s`,
or `-1` if `sub` is not present in `s`. -/
def stringsIndex (s sub : GoString) : Int :=
  match indexOpt sub s with
  | some i => (i : Int)
  | none => -1

/-- `strings.Repeat(s, count)`. -/
def stringsRepeat (s : GoString) (count : Nat) : GoString :=
  (List.replicate count s).flatten

/-- `strings.Join(elems, sep)`. -/
def stringsJoin (elems : List GoString) (sep : GoString) : GoString :=
  sep.intercalate elems

/-! ## `stripHTML` -/

/-- One pass through the body of the `for` loop of `stripHTML`, started with
`result`: `none` when the pass leaves the loop through one of the two `break`s,
`some r` when it reaches the assignment and `r` is the new value of `result`. -/
def stripStep (result : GoString) : Option GoString :=
  let start := stringsIndex result [LT]
  if start = -1 then none
  else
    let e := stringsIndex (result.drop start.toNat) [GT]
    if e = -1 then none
    else
      let e := start + e + 1
      some (result.take start.toNat ++ result.drop e.toNat)

/-- `stripHTML(text)`: the `for` loop started with `result := text`.  A pass
that reaches the assignment replaces `result` by a strictly shorter string,
which is the termination argument of the loop. -/
def stripHTML (text : GoString) : GoString :=
  match h : stripStep text with
  | none => text
  | some r => stripHTML r
termination_by text.length
decreasing_by
  have bound : ∀ (c : UInt8) (s : GoString) (i : Nat),
      indexOpt [c] s = some i → i < s.length := by
    intro c s
    induction s with
    | nil => intro i hi; simp [indexOpt] at hi
    | cons x xs ih =>
      intro i hi
      unfold indexOpt at hi
      split at hi
      · cases hi; simp
      · cases hx : indexOpt [c] xs with
        | none => simp [hx] at hi
        | some j =>
          simp [hx] at hi
          have := ih j hx
          simp only [List.length_cons]; omega
  unfold stripStep stringsIndex at h
  cases hs : indexOpt [LT] text with
  | none => simp [hs] at h
  | some i =>
    have hi := bound LT text i hs
    cases he : indexOpt [GT] (List.drop i text) with
    | none => simp [hs, he] at h
    | some j =>
      simp [hs, he] at h
      subst h
      simp only [List.length_append, List.length_take, List.length_drop]
      omega

/-! ## Data model (the structs of `main.go`) -/

/-- `SearchInfo`. -/
structure SearchInfo where
  TotalHits : Int
  deriving DecidableEq, Repr

/-- `SearchResult`: one entry of the `search` array. -/
structure SearchResult where
  NS : Int
  Title : GoString
  PageID : Int
  Size : Int
  WordCount : Int
  Snippet : GoString
  Timestamp : GoString
  deriving DecidableEq, Repr

/-- `Revision`; `Content` is the field decoded from the JSON key `*`. -/
structure Revision where
  ContentFormat : GoString
  ContentModel : GoString
  Content : GoString
  deriving DecidableEq, Repr

/-- `Page`.  `Revisions` is only ever inspected through `len` and indexing, so
a nil slice and an empty slice are both the empty list. -/
structure Page where
  PageID : Int
  NS : Int
  Title : GoString
  Revisions : List Revision
  deriving DecidableEq, Repr

/-- `QueryResult`.  `Search` is compared with `nil`, so the nil slice is `none`
and a non-nil slice (possibly of length 0) is `some`.  `Pages` is a Go map,
compared with `nil` and then ranged over: `none` is the nil map, and
`some entries` lists the entries of a non-nil map in the order in which the
`range` statement of this run visits them (the Go runtime picks that order, so
every order of the entries can occur). -/
structure QueryResult where
  Info : Option SearchInfo
  Search : Option (List SearchResult)
  Pages : Option (List (GoString × Page))
  deriving DecidableEq, Repr

/-- `APIResponse`; `Query` is a pointer, `none` is `nil`. -/
structure APIResponse where
  Query : Option QueryResult
  deriving DecidableEq, Repr

/-! ## Errors and observable effects -/

/-- The `error` values that can reach the program, by the call that made them. -/
inductive GoError where
  /-- Returned by `(*http.Client).Get`, with its message. -/
  | httpGet (msg : GoString)
  /-- Returned by `io.ReadAll`, with its message. -/
  | readAll (msg : GoString)
  /-- Returned by `json.Unmarshal`, with its message. -/
  | unmarshal (msg : GoString)
  /-- Returned by `strconv.Atoi` for the input `num`: `ErrRange` when `range`
  is true, `ErrSyntax` otherwise. -/
  | atoi (num : GoString) (range : Bool)
  /-- Built by `fmt.Errorf`; `msg` is the formatted message. -/
  | errorf (msg : GoString)
  deriving DecidableEq, Repr

deriving instance DecidableEq for Except

/-- An operand of a `fmt` print call. -/
inductive Arg where
  | str (s : GoString)
  | int (n : Int)
  | err (e : GoError)
  deriving DecidableEq, Repr

/-- What the program does to the outside, in order: the print calls on standard
output (with their operands, not yet formatted) and the HTTP GET requests. -/
inductive Event where
  /-- `fmt.Println(args...)`. -/
  | println (args : List Arg)
  /-- `fmt.Printf(format, args...)`. -/
  | printf (format : GoString) (args : List Arg)
  /-- `client.Get(url)`. -/
  | get (url : GoString)
  /-- A nil pointer dereference, which ends the run. -/
  | nilDeref
  deriving DecidableEq, Repr

/-- An `*http.Response` as far as the program looks at it: the status code and
what `io.ReadAll(resp.Body)` gives (the bytes, or the message of its error). -/
structure HttpResponse where
  StatusCode : Int
  Body : Except GoString GoString

/-- The outside world of one run: what `(*http.Client).Get` answers for a URL
(a response, or the message of its error) and what `json.Unmarshal` makes of a
body when decoding into a zero `APIResponse` (the decoded value, or the message
of its error). -/
structure World where
  httpGet : GoString → Except GoString HttpResponse
  jsonUnmarshal : GoString → Except GoString APIResponse

/-- `MoegirlClient`: holds the HTTP client. -/
structure MoegirlClient where
  client : GoString → Except GoString HttpResponse

/-- `NewMoegirlClient()`. -/
def NewMoegirlClient (w : World) : MoegirlClient :=
  { client := w.httpGet }

/-- The result of a client operation: the effects it performed and the Go
result pair `(value, err)`, `none` standing for `nil`. -/
structure Ret (α : Type) where
  trace : List Event
  value : Option α
  err : Option GoError

/-! ## Formatting and parsing of integers -/

/-- Decimal digits of `n`, most significant first, in front of `acc`; `fuel`
bounds the number of digits. -/
def digitsAux : Nat → Nat → GoString → GoString
  | 0, _, acc => acc
  | fuel + 1, n, acc =>
    let acc := (48 + n % 10).toUInt8 :: acc
    if n / 10 = 0 then acc else digitsAux fuel (n / 10) acc

/-- The verb `%d` applied to a Go `int`: decimal digits, with a leading `-`
for a negative value. -/
def formatInt (i : Int) : GoString :=
  if i < 0 then 45 :: digitsAux (i.natAbs + 1) i.natAbs []
  else digitsAux (i.natAbs + 1) i.natAbs []

/-- The byte is one of `0` .. `9`. -/
def isDigit (c : UInt8) : Bool := 48 ≤ c.toNat && c.toNat ≤ 57

/-- The digit loop of `strconv.ParseUint(s, 10, 64)`, with `n` the value read
so far.  The bytes are taken from left to right: a byte that is not a digit is
a syntax error (`false`); before a digit is added, `n >= cutoff` (the product
`n * 10` would overflow) is a range error (`true`), and so is a sum
`n * 10 + d` above the largest 64-bit value. -/
def parseUintLoop : GoString → Nat → Except Bool Nat
  | [], n => .ok n
  | c :: cs, n =>
    if isDigit c then
      if n ≥ 1844674407370955162 then .error true
      else if n * 10 + (c.toNat - 48) > 18446744073709551615 then .error true
      else parseUintLoop cs (n * 10 + (c.toNat - 48))
    else .error false

/-- `strconv.ParseUint(s, 10, 64)`: the empty string is a syntax error. -/
def ParseUint (s : GoString) : Except Bool Nat :=
  if s = [] then .error false else parseUintLoop s 0

/-- The end of `strconv.ParseInt`: the range test of the unsigned value `un`
against `cutoff = 1 << 63`, then the sign. -/
def signedRange (neg : Bool) (un : Nat) : Except Bool Int :=
  if neg = false ∧ un ≥ 9223372036854775808 then .error true
  else if neg = true ∧ un > 9223372036854775808 then .error true
  else .ok (if neg = true then -(un : Int) else (un : Int))

/-- `strconv.ParseInt(s, 10, 0)`: the empty string is a syntax error; a leading
`+` or `-` is picked off; a syntax error of `ParseUint` is returned, while on
its range error the work goes on with the largest 64-bit value, which then
fails the range test. -/
def ParseInt (s : GoString) : Except Bool Int :=
  if s = [] then .error false
  else
    let neg : Bool := s.head? = some 45
    let body := if s.head? = some 43 ∨ s.head? = some 45 then s.drop 1 else s
    match ParseUint body with
    | .error false => .error false
    | .error true => signedRange neg 18446744073709551615
    | .ok un => signedRange neg un

/-- The digit loop of the fast path of `strconv.Atoi`: `none` at the first byte
that is not a digit. -/
def atoiFastLoop : GoString → Int → Option Int
  | [], n => some n
  | ch :: cs, n =>
    if isDigit ch then atoiFastLoop cs (n * 10 + ((ch.toNat : Int) - 48)) else none

/-- `strconv.Atoi(s)` for the 64-bit `int`.  A string of 1 to 18 bytes takes
the fast path: sign, then the digit loop, any other byte being a syntax error.
Every other string goes through `ParseInt(s, 10, 0)`.  The error is a
`*NumError` for the whole input `s`. -/
def Atoi (s : GoString) : Except GoError Int :=
  if 0 < s.length ∧ s.length < 19 then
    let body := if s.head? = some 45 ∨ s.head? = some 43 then s.drop 1 else s
    if body.length < 1 then .error (.atoi s false)
    else
      match atoiFastLoop body 0 with
      | none => .error (.atoi s false)
      | some n => .ok (if s.head? = some 45 then -n else n)
  else
    match ParseInt s with
    | .ok i => .ok i
    | .error range => .error (.atoi s range)

/-! ## URL query strings (`net/url`) -/

/-- The constant `apiURL`. -/
def apiURL : GoString := utf8 "https://zh.moegirl.org.cn/api.php"

/-- The digit `"0123456789ABCDEF"[n]`. -/
def upperhex (n : Nat) : UInt8 :=
  if n < 10 then (48 + n).toUInt8 else (55 + n).toUInt8

/-- The test `shouldEscape(c, encodeQueryComponent)` of `net/url`: everything is
escaped except ASCII letters, digits and `-`, `_`, `.`, `~`. -/
def shouldEscape (c : UInt8) : Bool :=
  let n := c.toNat
  if (97 ≤ n ∧ n ≤ 122) ∨ (65 ≤ n ∧ n ≤ 90) ∨ (48 ≤ n ∧ n ≤ 57) then false
  else if n = 45 ∨ n = 95 ∨ n = 46 ∨ n = 126 then false
  else true

/-- `url.QueryEscape(s)`: a space becomes `+`, a byte that must be escaped
becomes `%XX` with upper-case hexadecimal digits, any other byte is kept. -/
def QueryEscape (s : GoString) : GoString :=
  s.flatMap fun c =>
    if c = 32 then [43]
    else if shouldEscape c then [37, upperhex (c.toNat / 16), upperhex (c.toNat % 16)]
    else [c]

/-- Go's `<` on strings: lexicographic order of the bytes. -/
def strLess : GoString → GoString → Bool
  | [], [] => false
  | [], _ :: _ => true
  | _ :: _, [] => false
  | x :: xs, y :: ys => x.toNat < y.toNat || (x = y && strLess xs ys)

/-- Insertion of a key into a list of keys sorted by `strLess`. -/
def insertKey (k : GoString) : List GoString → List GoString
  | [] => [k]
  | x :: xs => if strLess x k then x :: insertKey k xs else k :: x :: xs

/-- `slices.Sort(keys)`. -/
def sortKeys (keys : List GoString) : List GoString :=
  keys.foldr insertKey []

/-- `url.Values`, a `map[string][]string`: one entry per key. -/
structure Values where
  entries : List (GoString × List GoString)

/-- `url.Values{}`. -/
def Values.empty : Values := { entries := [] }

/-- `v.Set(key, value)`: sets the key to the single value, replacing any
existing values. -/
def Values.Set (v : Values) (key value : GoString) : Values :=
  if v.entries.any (fun kv => kv.1 = key) then
    { entries := v.entries.map fun kv => if kv.1 = key then (key, [value]) else kv }
  else { entries := v.entries ++ [(key, [value])] }

/-- The map lookup `v[k]`. -/
def Values.lookup (v : Values) (k : GoString) : List GoString :=
  match v.entries.find? (fun kv => kv.1 = k) with
  | some kv => kv.2
  | none => []

/-- `v.Encode()`: the values in URL-encoded form (`bar=baz&foo=quux`), sorted
by key. -/
def Values.Encode (v : Values) : GoString :=
  (sortKeys (v.entries.map fun kv => kv.1)).foldl
    (fun buf k =>
      (v.lookup k).foldl
        (fun buf val =>
          (if buf.length > 0 then buf ++ [38] else buf)
            ++ QueryEscape k ++ [61] ++ QueryEscape val)
        buf)
    []

/-! ## The client -/

/-- `makeRequest(params)`: one GET of `apiURL + "?" + params.Encode()`; the
error of `Get` is passed on, a status other than 200 becomes an error made by
`fmt.Errorf`, and otherwise the response is returned. -/
def MoegirlClient.makeRequest (m : MoegirlClient) (params : Values) :
    List Event × Except GoError HttpResponse :=
  let reqURL := apiURL ++ utf8 "?" ++ params.Encode
  match m.client reqURL with
  | .error e => ([.get reqURL], .error (.httpGet e))
  | .ok resp =>
    if resp.StatusCode ≠ 200 then
      ([.get reqURL], .error (.errorf (utf8 "API请求失败，状态码: " ++ formatInt resp.StatusCode)))
    else ([.get reqURL], .ok resp)

/-- The parameters `Search` sets, in the order of its `params.Set` calls. -/
def searchParams (query : GoString) (limit : Int) : Values :=
  ((((Values.empty.Set (utf8 "action") (utf8 "query")).Set (utf8 "format") (utf8 "json")).Set
    (utf8 "list") (utf8 "search")).Set (utf8 "srsearch") query).Set (utf8 "srlimit")
    (formatInt limit)

/-- `Search(query, limit)`. -/
def MoegirlClient.Search (m : MoegirlClient) (w : World) (query : GoString) (limit : Int) :
    Ret (List SearchResult) :=
  match m.makeRequest (searchParams query limit) with
  | (tr, .error err) => { trace := tr, value := none, err := some err }
  | (tr, .ok resp) =>
    match resp.Body with
    | .error e => { trace := tr, value := none, err := some (.readAll e) }
    | .ok body =>
      match w.jsonUnmarshal body with
      | .error e => { trace := tr, value := none, err := some (.unmarshal e) }
      | .ok apiResp =>
        match apiResp.Query with
        | none => { trace := tr, value := none, err := some (.errorf (utf8 "未找到搜索结果")) }
        | some q =>
          match q.Search with
          | none =>
            { trace := tr, value := none, err := some (.errorf (utf8 "未找到搜索结果")) }
          | some results => { trace := tr, value := some results, err := none }

/-- The parameters `GetPageByTitle` sets. -/
def titleParams (title : GoString) : Values :=
  ((((Values.empty.Set (utf8 "action") (utf8 "query")).Set (utf8 "format") (utf8 "json")).Set
    (utf8 "titles") title).Set (utf8 "prop") (utf8 "revisions")).Set (utf8 "rvprop")
    (utf8 "content")

/-- `GetPageByTitle(title)`.  The `range` loop returns at the first entry it
visits; the statement after the loop is reached only for an empty map. -/
def MoegirlClient.GetPageByTitle (m : MoegirlClient) (w : World) (title : GoString) :
    Ret Page :=
  match m.makeRequest (titleParams title) with
  | (tr, .error err) => { trace := tr, value := none, err := some err }
  | (tr, .ok resp) =>
    match resp.Body with
    | .error e => { trace := tr, value := none, err := some (.readAll e) }
    | .ok body =>
      match w.jsonUnmarshal body with
      | .error e => { trace := tr, value := none, err := some (.unmarshal e) }
      | .ok apiResp =>
        match apiResp.Query with
        | none => { trace := tr, value := none, err := some (.errorf (utf8 "未找到页面")) }
        | some q =>
          match q.Pages with
          | none => { trace := tr, value := none, err := some (.errorf (utf8 "未找到页面")) }
          | some ((_, page) :: _) => { trace := tr, value := some page, err := none }
          | some [] =>
            { trace := tr, value := none, err := some (.errorf (utf8 "未找到页面内容")) }

/-- The parameters `GetPageByID` sets. -/
def idParams (pageID : Int) : Values :=
  ((((Values.empty.Set (utf8 "action") (utf8 "query")).Set (utf8 "format") (utf8 "json")).Set
    (utf8 "pageids") (formatInt pageID)).Set (utf8 "prop") (utf8 "revisions")).Set
    (utf8 "rvprop") (utf8 "content")

/-- `GetPageByID(pageID)`. -/
def MoegirlClient.GetPageByID (m : MoegirlClient) (w : World) (pageID : Int) : Ret Page :=
  match m.makeRequest (idParams pageID) with
  | (tr, .error err) => { trace := tr, value := none, err := some err }
  | (tr, .ok resp) =>
    match resp.Body with
    | .error e => { trace := tr, value := none, err := some (.readAll e) }
    | .ok body =>
      match w.jsonUnmarshal body with
      | .error e => { trace := tr, value := none, err := some (.unmarshal e) }
      | .ok apiResp =>
        match apiResp.Query with
        | none => { trace := tr, value := none, err := some (.errorf (utf8 "未找到页面")) }
        | some q =>
          match q.Pages with
          | none => { trace := tr, value := none, err := some (.errorf (utf8 "未找到页面")) }
          | some ((_, page) :: _) => { trace := tr, value := some page, err := none }
          | some [] =>
            { trace := tr, value := none, err := some (.errorf (utf8 "未找到页面内容")) }

/-! ## Printing -/

/-- `printSearchResults(results)`. -/
def printSearchResults (results : List SearchResult) : List Event :=
  if results.length = 0 then [.println [.str (utf8 "没有找到匹配的结果")]]
  else
    [.printf (utf8 "找到 %d 条结果:\n") [.int results.length],
      .println [.str (stringsRepeat (utf8 "-") 80)]]
    ++ results.enum.flatMap fun (i, result) =>
      [.printf (utf8 "%d. %s\n") [.int (i + 1), .str result.Title],
        .printf (utf8 "   页面ID: %d\n") [.int result.PageID],
        .printf (utf8 "   字符数: %d\n") [.int result.Size]]
      ++ (if result.Snippet ≠ [] then
            [.printf (utf8 "   摘要: %s\n") [.str (stripHTML result.Snippet)]]
          else [])
      ++ [.println [.str (stringsRepeat (utf8 "-") 80)]]

/-- The string appended to content that was cut. -/
def truncationMarker : GoString := utf8 "\n\n... (内容太长，已截断) ..."

/-- `printPageContent(page)`. -/
def printPageContent (page : Page) : List Event :=
  if page.Title = [] then [.println [.str (utf8 "未找到页面")]]
  else
    [.printf (utf8 "页面标题: %s\n") [.str page.Title],
      .printf (utf8 "页面ID: %d\n") [.int page.PageID],
      .println [.str (stringsRepeat (utf8 "=") 80)]]
    ++ (match page.Revisions with
        | r :: _ =>
          if r.Content ≠ [] then
            let content := r.Content
            let content :=
              if content.length > 2000 then content.take 2000 ++ truncationMarker
              else content
            [.println [.str content]]
          else [.println [.str (utf8 "页面内容为空")]]
        | [] => [.println [.str (utf8 "页面内容为空")]])

/-! ## `main` -/

/-- The three usage lines printed for a missing and for an unknown command. -/
def usageLines : List Event :=
  [.println [.str (utf8 "用法:")],
    .println [.str (utf8 "  搜索: go run main.go search <关键词> [数量]")],
    .println [.str (utf8 "  查看(按标题): go run main.go view <页面标题>")],
    .println [.str (utf8 "  查看(按ID): go run main.go viewid <页面ID>")]]

/-- `main()` run with `os.Args = Args` in the world `w`.  The tests on
`len(os.Args)` are the matches on the list: `len(os.Args) < 2` is the first
case, `len(os.Args) < 3` is `rest = []`, `len(os.Args) > 3` is `more ≠ []`. -/
def main (w : World) (Args : List GoString) : List Event :=
  match Args with
  | [] | [_] =>
    usageLines ++
      [.println [],
        .println [.str (utf8 "示例:")],
        .println [.str (utf8 "  go run main.go search 萌娘 5")],
        .println [.str (utf8 "  go run main.go view 萌娘百科:首页")],
        .println [.str (utf8 "  go run main.go viewid 23528")]]
  | _ :: command :: rest =>
    let client := NewMoegirlClient w
    if command = utf8 "search" then
      match rest with
      | [] => [.println [.str (utf8 "错误: 请提供搜索关键词")]]
      | query :: more =>
        let limit : Int :=
          match more with
          | [] => 10
          | a :: _ =>
            match Atoi a with
            | .ok l => l
            | .error _ => 10
        let r := client.Search w query limit
        [.printf (utf8 "正在搜索: %s\n") [.str query]] ++ r.trace ++
          (match r.err with
            | some err => [.printf (utf8 "搜索失败: %v\n") [.err err]]
            | none => printSearchResults (r.value.getD []))
    else if command = utf8 "view" then
      match rest with
      | [] => [.println [.str (utf8 "错误: 请提供页面标题")]]
      | _ :: _ =>
        let title := stringsJoin rest (utf8 " ")
        let r := client.GetPageByTitle w title
        [.printf (utf8 "正在获取页面: %s\n") [.str title]] ++ r.trace ++
          (match r.err, r.value with
            | some err, _ => [.printf (utf8 "获取页面失败: %v\n") [.err err]]
            | none, some page => printPageContent page
            | none, none => [.nilDeref])
    else if command = utf8 "viewid" then
      match rest with
      | [] => [.println [.str (utf8 "错误: 请提供页面ID")]]
      | a :: _ =>
        match Atoi a with
        | .error err => [.printf (utf8 "页面ID必须是数字: %v\n") [.err err]]
        | .ok pageID =>
          let r := client.GetPageByID w pageID
          [.printf (utf8 "正在获取页面ID: %d\n") [.int pageID]] ++ r.trace ++
            (match r.err, r.value with
              | some err, _ => [.printf (utf8 "获取页面失败: %v\n") [.err err]]
              | none, some page => printPageContent page
              | none, none => [.nilDeref])
    else [.printf (utf8 "未知命令: %s\n") [.str command]] ++ usageLines

/-! ## Vocabulary of the specification -/

/-- The error taxonomy of the specification. -/
inductive ErrorKind where
  | TransportError
  | ProtocolError
  | DecodeError
  | NotFoundError
  deriving DecidableEq, Repr

/-- The kind of an error value of the program, in the words of the
specification: connection and IO failures are transport errors, a failure of
the JSON decoder is a decode error, the error made for a status other than 200
(its message starts with the text of the `fmt.Errorf` call in `makeRequest`) is
a protocol error, and the three errors made for a missing section or an empty
mapping are not-found errors. -/
def GoError.kind : GoError → Option ErrorKind
  | .httpGet _ => some .TransportError
  | .readAll _ => some .TransportError
  | .unmarshal _ => some .DecodeError
  | .atoi _ _ => none
  | .errorf msg =>
    if msg = utf8 "未找到搜索结果" ∨ msg = utf8 "未找到页面" ∨ msg = utf8 "未找到页面内容" then
      some .NotFoundError
    else if (utf8 "API请求失败，状态码: ").isPrefixOf msg then some .ProtocolError
    else none

/-- The number of characters (Unicode code points) of a UTF-8 string: its bytes
other than the continuation bytes `10xxxxxx`. -/
def runeCount (s : GoString) : Nat :=
  s.countP fun c => c.toNat / 64 ≠ 2

/-- A decimal integer as a command-line argument: an optional sign followed by
one or more digits. -/
def isDecimal (s : GoString) : Bool :=
  let body := if s.head? = some 43 ∨ s.head? = some 45 then s.drop 1 else s
  body ≠ [] && body.all isDigit

/-- The URL a request with the given parameters is sent to. -/
def requestURL (params : Values) : GoString :=
  apiURL ++ utf8 "?" ++ params.Encode

/-- The three events with which `printPageContent` starts for a page that has a
title. -/
def pageHeader (page : Page) : List Event :=
  [.printf (utf8 "页面标题: %s\n") [.str page.Title],
    .printf (utf8 "页面ID: %d\n") [.int page.PageID],
    .println [.str (stringsRepeat (utf8 "=") 80)]]

/-- A page with a title whose first revision has empty content. -/
def emptyContentPage : Page :=
  { PageID := 1, NS := 0, Title := utf8 "T",
    Revisions := [{ ContentFormat := [], ContentModel := [], Content := [] }] }

/-- A page with a title whose first revision is 667 times the character `萌`:
667 characters, 2001 bytes. -/
def cjkPage : Page :=
  { PageID := 1, NS := 0, Title := utf8 "T",
    Revisions := [{ ContentFormat := [], ContentModel := [],
                    Content := stringsRepeat (utf8 "萌") 667 }] }

/-- A page with a title whose first revision is 2001 times the character `a`. -/
def longPage : Page :=
  { PageID := 8, NS := 0, Title := utf8 "L",
    Revisions := [{ ContentFormat := [], ContentModel := [],
                    Content := List.replicate 2001 97 }] }

/-- A page with a title and a short first revision. -/
def shortPage : Page :=
  { PageID := 7, NS := 0, Title := utf8 "T",
    Revisions := [{ ContentFormat := [], ContentModel := [], Content := utf8 "abc" }] }

/-- A world in which every GET is answered with the given status and an empty
body, and the decoder yields `apiResp`. -/
def fixedWorld (status : Int) (apiResp : APIResponse) : World :=
  { httpGet := fun _ => .ok { StatusCode := status, Body := .ok [] },
    jsonUnmarshal := fun _ => .ok apiResp }

/-- Two search hits. -/
def sampleHits : List SearchResult :=
  [{ NS := 0, Title := utf8 "A", PageID := 1, Size := 10, WordCount := 2,
     Snippet := utf8 "<b>a</b>", Timestamp := [] },
   { NS := 0, Title := utf8 "B", PageID := 2, Size := 20, WordCount := 3,
     Snippet := [], Timestamp := [] }]

/-- A decoded search response carrying `sampleHits`. -/
def sampleSearchResponse : APIResponse :=
  { Query := some { Info := some { TotalHits := 2 }, Search := some sampleHits, Pages := none } }

/-- A decoded page response with the single entry `"7" ↦ shortPage`. -/
def samplePageResponse : APIResponse :=
  { Query := some { Info := none, Search := none, Pages := some [(utf8 "7", shortPage)] } }

/-- A decoded response without a `query` section. -/
def emptyResponse : APIResponse := { Query := none }

/-! ## Sample values of the library models -/

theorem formatInt_samples :
    formatInt 0 = utf8 "0" ∧ formatInt 10 = utf8 "10" ∧ formatInt (-120) = utf8 "-120" ∧
      formatInt 9223372036854775807 = utf8 "9223372036854775807" := by
  decide

theorem Atoi_samples :
    Atoi (utf8 "23528") = .ok 23528 ∧ Atoi (utf8 "-12") = .ok (-12) ∧
      Atoi (utf8 "+7") = .ok 7 ∧
      Atoi (utf8 "9223372036854775807") = .ok 9223372036854775807 ∧
      Atoi (utf8 "-9223372036854775808") = .ok (-9223372036854775808) ∧
      Atoi (utf8 "0000000000000000000012") = .ok 12 ∧
      Atoi (utf8 "abc") = .error (.atoi (utf8 "abc") false) ∧
      Atoi (utf8 "") = .error (.atoi (utf8 "") false) ∧
      Atoi (utf8 "-") = .error (.atoi (utf8 "-") false) ∧
      Atoi (utf8 "12a") = .error (.atoi (utf8 "12a") false) ∧
      Atoi (utf8 "1234567890123456789a") = .error (.atoi (utf8 "1234567890123456789a") false) ∧
      Atoi (utf8 "9223372036854775808") = .error (.atoi (utf8 "9223372036854775808") true) ∧
      Atoi (utf8 "-9223372036854775809")
        = .error (.atoi (utf8 "-9223372036854775809") true) ∧
      Atoi (utf8 "99999999999999999999a")
        = .error (.atoi (utf8 "99999999999999999999a") true) ∧
      Atoi (utf8 "-18446744073709551616x")
        = .error (.atoi (utf8 "-18446744073709551616x") true) := by
  decide

theorem QueryEscape_samples :
    QueryEscape (utf8 "a b&c=d") = utf8 "a+b%26c%3Dd" ∧
      QueryEscape (utf8 "萌娘百科:首页") = utf8 "%E8%90%8C%E5%A8%98%E7%99%BE%E7%A7%91%3A%E9%A6%96%E9%A1%B5" ∧
      QueryEscape (utf8 "A-z_0.9~") = utf8 "A-z_0.9~" := by
  decide

theorem Encode_samples :
    ((Values.empty.Set (utf8 "b") (utf8 "1")).Set (utf8 "a") (utf8 "x y")).Encode
        = utf8 "a=x+y&b=1" ∧
      (((Values.empty.Set (utf8 "k") (utf8 "1")).Set (utf8 "k") (utf8 "2")).Encode
        = utf8 "k=2") ∧
      Values.empty.Encode = [] := by
  decide

theorem stringsIndex_samples :
    stringsIndex (utf8 "chicken") (utf8 "ken") = 4 ∧
      stringsIndex (utf8 "chicken") (utf8 "dmr") = -1 ∧
      stringsIndex (utf8 "a<b>") [LT] = 1 ∧ stringsIndex (utf8 "abc") [] = 0 := by
  decide

/-! ## Properties of `strings.Index` for a one-byte needle -/

theorem indexOpt_single_cons (c x : UInt8) (xs : GoString) :
    indexOpt [c] (x :: xs) = if c = x then some 0 else (indexOpt [c] xs).map (· + 1) := by
  simp [indexOpt, List.isPrefixOf]

theorem indexOpt_single_absent {c : UInt8} {s : GoString} (h : c ∉ s) :
    indexOpt [c] s = none := by
  induction s with
  | nil => simp [indexOpt]
  | cons x xs ih =>
    have hx : c ≠ x := fun e => h (by simp [e])
    have hxs : c ∉ xs := fun e => h (by simp [e])
    simp [indexOpt_single_cons, hx, ih hxs]

theorem indexOpt_single_first {c : UInt8} {a : GoString} (b : GoString) (h : c ∉ a) :
    indexOpt [c] (a ++ c :: b) = some a.length := by
  induction a with
  | nil => simp [indexOpt_single_cons]
  | cons x xs ih =>
    have hx : c ≠ x := fun e => h (by simp [e])
    have hxs : c ∉ xs := fun e => h (by simp [e])
    simp [indexOpt_single_cons, hx, ih hxs]

theorem stringsIndex_absent {c : UInt8} {s : GoString} (h : c ∉ s) :
    stringsIndex s [c] = -1 := by
  simp [stringsIndex, indexOpt_single_absent h]

theorem stringsIndex_first {c : UInt8} {a : GoString} (b : GoString) (h : c ∉ a) :
    stringsIndex (a ++ c :: b) [c] = (a.length : Int) := by
  simp [stringsIndex, indexOpt_single_first b h]

/-- A list containing `c` splits at the first occurrence of `c`. -/
theorem split_at_first {c : UInt8} {s : GoString} (h : c ∈ s) :
    ∃ a b, s = a ++ c :: b ∧ c ∉ a := by
  induction s with
  | nil => simp at h
  | cons x xs ih =>
    by_cases hx : c = x
    · exact ⟨[], xs, by simp [hx], by simp⟩
    · have hxs : c ∈ xs := by
        rcases List.mem_cons.mp h with e | e
        · exact absurd e hx
        · exact e
      obtain ⟨a, b, hab, ha⟩ := ih hxs
      refine ⟨x :: a, b, by simp [hab], ?_⟩
      intro hmem
      rcases List.mem_cons.mp hmem with e | e
      · exact hx e
      · exact ha e

/-! ## The loop body of `stripHTML` -/

theorem stripStep_no_open {s : GoString} (h : LT ∉ s) : stripStep s = none := by
  simp [stripStep, stringsIndex_absent h]

theorem stripStep_no_close {a b : GoString} (ha : LT ∉ a) (hb : GT ∉ b) :
    stripStep (a ++ LT :: b) = none := by
  have hgt : GT ∉ LT :: b := by
    intro hmem
    rcases List.mem_cons.mp hmem with e | e
    · exact absurd e (by decide)
    · exact hb e
  have h1 : stringsIndex (a ++ LT :: b) [LT] = (a.length : Int) := stringsIndex_first b ha
  have h2 : (a.length : Int) ≠ -1 := by omega
  simp [stripStep, h1, h2, stringsIndex_absent hgt]

theorem stripStep_tag {a t : GoString} (b : GoString) (ha : LT ∉ a) (ht : GT ∉ t) :
    stripStep (a ++ LT :: (t ++ GT :: b)) = some (a ++ b) := by
  have hgt : GT ∉ LT :: t := by
    intro hmem
    rcases List.mem_cons.mp hmem with e | e
    · exact absurd e (by decide)
    · exact ht e
  have h1 : stringsIndex (a ++ LT :: (t ++ GT :: b)) [LT] = (a.length : Int) :=
    stringsIndex_first _ ha
  have h2 : (a.length : Int) ≠ -1 := by omega
  have h3 : stringsIndex (LT :: (t ++ GT :: b)) [GT] = ((t.length + 1 : Nat) : Int) := by
    have := stringsIndex_first (c := GT) (a := LT :: t) b hgt
    simpa using this
  have h4 : (((t.length + 1 : Nat) : Int)) ≠ -1 := by omega
  have h5 : ((a.length : Int) + ((t.length + 1 : Nat) : Int) + 1).toNat
      = a.length + (t.length + 2) := by omega
  have h6 : List.drop (a.length + (t.length + 2)) (a ++ LT :: (t ++ GT :: b)) = b := by
    rw [List.drop_append]
    have : LT :: (t ++ GT :: b) = (LT :: t ++ [GT]) ++ b := by simp
    rw [this]
    have hl : t.length + 2 = (LT :: t ++ [GT]).length := by simp
    rw [hl, List.drop_left]
  simp only [stripStep, h1, h2, if_false, Int.toNat_ofNat, List.drop_left, h3, h4, h5, h6,
    List.take_left]

/-- Every string is of exactly one of the three shapes the loop body tells
apart: no `<`; a first `<` with no `>` from there on; a first `<` and a first
`>` after it. -/
theorem strip_shapes (s : GoString) :
    LT ∉ s ∨ (∃ a b, s = a ++ LT :: b ∧ LT ∉ a ∧ GT ∉ b) ∨
      ∃ a t b, s = a ++ LT :: (t ++ GT :: b) ∧ LT ∉ a ∧ GT ∉ t := by
  by_cases h : LT ∈ s
  · obtain ⟨a, rest, hs, ha⟩ := split_at_first h
    by_cases hg : GT ∈ rest
    · obtain ⟨t, b, hr, ht⟩ := split_at_first hg
      exact Or.inr (Or.inr ⟨a, t, b, by rw [hs, hr], ha, ht⟩)
    · exact Or.inr (Or.inl ⟨a, rest, hs, ha, hg⟩)
  · exact Or.inl h

theorem stripStep_shortens {s r : GoString} (h : stripStep s = some r) :
    r.length < s.length := by
  rcases strip_shapes s with h0 | ⟨a, b, hs, ha, hb⟩ | ⟨a, t, b, hs, ha, ht⟩
  · rw [stripStep_no_open h0] at h; cases h
  · rw [hs, stripStep_no_close ha hb] at h; cases h
  · rw [hs, stripStep_tag b ha ht] at h
    cases h
    rw [hs]
    simp only [List.length_append, List.length_cons]
    omega

theorem stripStep_append {a : GoString} (ha : LT ∉ a) (b : GoString) :
    stripStep (a ++ b) = (stripStep b).map (a ++ ·) := by
  rcases strip_shapes b with h0 | ⟨a', b', hs, ha', hb'⟩ | ⟨a', t, b', hs, ha', ht⟩
  · have : LT ∉ a ++ b := by simp [ha, h0]
    rw [stripStep_no_open this, stripStep_no_open h0]; rfl
  · have h1 : LT ∉ a ++ a' := by simp [ha, ha']
    rw [hs, stripStep_no_close ha' hb', ← List.append_assoc, stripStep_no_close h1 hb']; rfl
  · have h1 : LT ∉ a ++ a' := by simp [ha, ha']
    rw [hs, stripStep_tag b' ha' ht, ← List.append_assoc, stripStep_tag b' h1 ht]
    simp

/-- If a pass ends in `break`, a `>` never follows a `<` in the string. -/
theorem stripStep_none_shape {s : GoString} (h : stripStep s = none) (a b : GoString)
    (hs : s = a ++ LT :: b) : GT ∉ b := by
  intro hgt
  have hmem : LT ∈ s := by simp [hs]
  rcases strip_shapes s with h0 | ⟨a', b', hs', ha', hb'⟩ | ⟨a', t, b', hs', ha', _⟩
  · exact h0 hmem
  · apply hb'
    have e : a ++ LT :: b = a' ++ LT :: b' := by rw [← hs, ← hs']
    rcases List.append_eq_append_iff.mp e with ⟨c, hc1, hc2⟩ | ⟨c, hc1, hc2⟩
    · cases c with
      | nil => simp at hc2; simpa [hc2] using hgt
      | cons x c' =>
        simp at hc2
        exact absurd (by simp [hc1, hc2.1]) ha'
    · cases c with
      | nil => simp at hc2; simpa [← hc2] using hgt
      | cons x c' =>
        simp at hc2
        rw [hc2.2]
        simp [hgt]
  · rw [hs', stripStep_tag _ ha' ‹_›] at h; cases h

/-! ## `stripHTML` -/

theorem stripHTML_break {s : GoString} (h : stripStep s = none) : stripHTML s = s := by
  rw [stripHTML]
  split
  · rfl
  · rename_i r hr; rw [h] at hr; cases hr

theorem stripHTML_continue {s r : GoString} (h : stripStep s = some r) :
    stripHTML s = stripHTML r := by
  rw [stripHTML]
  split
  · rename_i hr; rw [h] at hr; cases hr
  · rename_i r' hr; rw [h] at hr; cases hr; rfl

theorem stripHTML_append_aux (n : Nat) :
    ∀ (a b : GoString), b.length ≤ n → LT ∉ a → stripHTML (a ++ b) = a ++ stripHTML b := by
  induction n with
  | zero =>
    intro a b hb ha
    have : b = [] := List.length_eq_zero.mp (Nat.le_zero.mp hb)
    subst this
    have h1 : stripStep (a ++ []) = none := stripStep_no_open (by simpa using ha)
    have h2 : stripStep ([] : GoString) = none := stripStep_no_open (by simp)
    rw [stripHTML_break h1, stripHTML_break h2]
  | succ n ih =>
    intro a b hb ha
    cases hstep : stripStep b with
    | none =>
      have h1 : stripStep (a ++ b) = none := by rw [stripStep_append ha, hstep]; rfl
      rw [stripHTML_break h1, stripHTML_break hstep]
    | some r =>
      have h1 : stripStep (a ++ b) = some (a ++ r) := by rw [stripStep_append ha, hstep]; rfl
      have hr : r.length ≤ n := by
        have := stripStep_shortens hstep
        omega
      rw [stripHTML_continue h1, stripHTML_continue hstep]
      exact ih a r hr ha

theorem stripHTML_append {a : GoString} (ha : LT ∉ a) (b : GoString) :
    stripHTML (a ++ b) = a ++ stripHTML b :=
  stripHTML_append_aux b.length a b (Nat.le_refl _) ha

/-- The loop is left with a string on which the next pass would `break`. -/
theorem stripStep_stripHTML_aux (n : Nat) :
    ∀ s : GoString, s.length ≤ n → stripStep (stripHTML s) = none := by
  induction n with
  | zero =>
    intro s hs
    have : s = [] := List.length_eq_zero.mp (Nat.le_zero.mp hs)
    subst this
    have h2 : stripStep ([] : GoString) = none := stripStep_no_open (by simp)
    rw [stripHTML_break h2, h2]
  | succ n ih =>
    intro s hs
    cases hstep : stripStep s with
    | none => rw [stripHTML_break hstep, hstep]
    | some r =>
      rw [stripHTML_continue hstep]
      have := stripStep_shortens hstep
      exact ih r (by omega)

theorem stripStep_stripHTML (s : GoString) : stripStep (stripHTML s) = none :=
  stripStep_stripHTML_aux s.length s (Nat.le_refl _)

/-! ## Claims about `stripHTML` -/

/-- C1: `stripHTML` is the lexical strip.  (i) If `s` has no `<`, or no `>`
occurs at or after the first `<` of `s`, then `stripHTML s = s`.  (ii) If
`s = a ++ "<" ++ t ++ ">" ++ b` with no `<` in `a` and no `>` in `t`, then
`stripHTML s = a ++ stripHTML b`.  Every string falls under (i) or (ii), and
the three sample strings give `"no tags"`, `"<unterminated"` and `"acd"`. -/
theorem stripHTML_lexical_strip :
    (∀ s : GoString,
      (LT ∉ s ∨ ∃ a b, s = a ++ [LT] ++ b ∧ LT ∉ a ∧ GT ∉ b) → stripHTML s = s) ∧
    (∀ a t b : GoString, LT ∉ a → GT ∉ t →
      stripHTML (a ++ [LT] ++ t ++ [GT] ++ b) = a ++ stripHTML b) ∧
    (∀ s : GoString,
      (LT ∉ s ∨ ∃ a b, s = a ++ [LT] ++ b ∧ LT ∉ a ∧ GT ∉ b) ∨
        ∃ a t b, s = a ++ [LT] ++ t ++ [GT] ++ b ∧ LT ∉ a ∧ GT ∉ t) ∧
    stripHTML (utf8 "no tags") = utf8 "no tags" ∧
    stripHTML (utf8 "<unterminated") = utf8 "<unterminated" ∧
    stripHTML (utf8 "a<b>c</b>d") = utf8 "acd" := by
  refine ⟨?_, ?_, ?_, ?_, ?_, ?_⟩
  · rintro s (h | ⟨a, b, hs, ha, hb⟩)
    · exact stripHTML_break (stripStep_no_open h)
    · subst hs
      have : a ++ [LT] ++ b = a ++ LT :: b := by simp
      rw [this]
      exact stripHTML_break (stripStep_no_close ha hb)
  · intro a t b ha ht
    have : a ++ [LT] ++ t ++ [GT] ++ b = a ++ LT :: (t ++ GT :: b) := by simp
    rw [this, stripHTML_continue (stripStep_tag b ha ht)]
    exact stripHTML_append ha b
  · intro s
    rcases strip_shapes s with h0 | ⟨a, b, hs, ha, hb⟩ | ⟨a, t, b, hs, ha, ht⟩
    · exact Or.inl (Or.inl h0)
    · exact Or.inl (Or.inr ⟨a, b, by simp [hs], ha, hb⟩)
    · exact Or.inr ⟨a, t, b, by simp [hs], ha, ht⟩
  · exact stripHTML_break (by decide)
  · exact stripHTML_break (by decide)
  · rw [stripHTML_continue (r := utf8 "ac</b>d") (by decide),
      stripHTML_continue (r := utf8 "acd") (by decide)]
    exact stripHTML_break (by decide)

/-- Witness for C1: clause (ii) at `"a<b>c</b>d"`, split as `a = "a"`,
`t = "b"`, `b = "c</b>d"`. -/
theorem stripHTML_lexical_strip_witness :
    LT ∉ utf8 "a" ∧ GT ∉ utf8 "b" ∧
      stripHTML (utf8 "a" ++ [LT] ++ utf8 "b" ++ [GT] ++ utf8 "c</b>d")
        = utf8 "a" ++ stripHTML (utf8 "c</b>d") :=
  ⟨by decide, by decide,
    stripHTML_lexical_strip.2.1 (utf8 "a") (utf8 "b") (utf8 "c</b>d") (by decide) (by decide)⟩

/-- C10: the loop of `stripHTML` terminates: a pass that does not leave the
loop makes the string strictly shorter, and the function returns a string on
which the next pass leaves the loop.  In that result no `<` has a `>` anywhere
after it, and stripping it again changes nothing. -/
theorem stripHTML_terminates_idempotent (s : GoString) :
    (∀ r, stripStep s = some r → r.length < s.length) ∧
    stripStep (stripHTML s) = none ∧
    (stripHTML s).length ≤ s.length ∧
    (∀ a b, stripHTML s = a ++ [LT] ++ b → GT ∉ b) ∧
    stripHTML (stripHTML s) = stripHTML s := by
  refine ⟨fun r h => stripStep_shortens h, stripStep_stripHTML s, ?_, ?_,
    stripHTML_break (stripStep_stripHTML s)⟩
  · have aux : ∀ n : Nat, ∀ u : GoString, u.length ≤ n → (stripHTML u).length ≤ u.length := by
      intro n
      induction n with
      | zero =>
        intro u hu
        have : u = [] := List.length_eq_zero.mp (Nat.le_zero.mp hu)
        subst this
        rw [stripHTML_break (stripStep_no_open (by simp))]
      | succ n ih =>
        intro u hu
        cases hstep : stripStep u with
        | none => rw [stripHTML_break hstep]
        | some r =>
          rw [stripHTML_continue hstep]
          have h1 := stripStep_shortens hstep
          have h2 := ih r (by omega)
          omega
    exact aux s.length s (Nat.le_refl _)
  · intro a b hab
    exact stripStep_none_shape (stripStep_stripHTML s) a b (by simpa using hab)

/-- Witness for C10 at `"a<b>c"`: the one pass that stays in the loop gives
`"ac"`, which is shorter. -/
theorem stripHTML_terminates_idempotent_witness :
    stripStep (utf8 "a<b>c") = some (utf8 "ac") ∧
      (utf8 "ac").length < (utf8 "a<b>c").length :=
  ⟨by decide,
    (stripHTML_terminates_idempotent (utf8 "a<b>c")).1 (utf8 "ac") (by decide)⟩

/-! ## Claims about `printPageContent` -/

theorem stringsRepeat_length (s : GoString) (n : Nat) :
    (stringsRepeat s n).length = n * s.length := by
  induction n with
  | zero => simp [stringsRepeat]
  | succ n ih =>
    simp only [stringsRepeat, List.replicate_succ, List.flatten_cons, List.length_append] at ih ⊢
    rw [ih]; ring

theorem runeCount_append (a b : GoString) : runeCount (a ++ b) = runeCount a + runeCount b := by
  simp [runeCount, List.countP_append]

theorem runeCount_stringsRepeat (s : GoString) (n : Nat) :
    runeCount (stringsRepeat s n) = n * runeCount s := by
  induction n with
  | zero => simp [stringsRepeat, runeCount]
  | succ n ih =>
    have : stringsRepeat s (n + 1) = s ++ stringsRepeat s n := by
      simp [stringsRepeat, List.replicate_succ]
    rw [this, runeCount_append, ih]; ring

/-- What `printPageContent` prints for a page with a title and a first
revision with content. -/
theorem printPageContent_content (page : Page) (r : Revision) (rest : List Revision)
    (hT : page.Title ≠ []) (hR : page.Revisions = r :: rest) (hC : r.Content ≠ []) :
    printPageContent page = pageHeader page ++
      [.println [.str (if r.Content.length > 2000 then r.Content.take 2000 ++ truncationMarker
                        else r.Content)]] := by
  simp only [printPageContent, if_neg hT, hR, pageHeader, ne_eq, hC, not_false_eq_true, if_true]

theorem truncationMarker_length : truncationMarker.length = 36 := by decide

theorem runeCount_le_length (s : GoString) : runeCount s ≤ s.length := by
  unfold runeCount
  exact List.countP_le_length _

/-- In a string of single-byte characters every byte is a character. -/
theorem runeCount_single_byte (s : GoString) (h : ∀ c ∈ s, c.toNat < 128) :
    runeCount s = s.length := by
  induction s with
  | nil => rfl
  | cons x xs ih =>
    have hx : x.toNat < 128 := h x (by simp)
    have hxs : ∀ c ∈ xs, c.toNat < 128 := fun c hc => h c (by simp [hc])
    have hne : x.toNat / 64 ≠ 2 := by omega
    have := ih hxs
    unfold runeCount at this ⊢
    rw [List.countP_cons_of_pos _ _ (by simpa using hne), this, List.length_cons]

/-- C2, as stated, fails: a page with a title whose first revision has empty
content (0 characters, so "2000 or fewer") is not rendered with its content
unmodified; the notice for empty content is printed instead. -/
theorem printPageContent_claim_counterexample :
    emptyContentPage.Title ≠ [] ∧
    (∃ r rest, emptyContentPage.Revisions = r :: rest ∧ runeCount r.Content ≤ 2000 ∧
      printPageContent emptyContentPage
        ≠ pageHeader emptyContentPage ++ [.println [.str r.Content]]) ∧
    printPageContent emptyContentPage
      = pageHeader emptyContentPage ++ [.println [.str (utf8 "页面内容为空")]] :=
  ⟨by decide, ⟨_, _, rfl, by decide, by decide⟩, by decide⟩

/-- The limit of `printPageContent` counts bytes: a content of 667 characters
`萌` (2001 bytes) is cut after 2000 bytes, inside its last character. -/
theorem printPageContent_cuts_bytes :
    runeCount (stringsRepeat (utf8 "萌") 667) = 667 ∧
    printPageContent cjkPage = pageHeader cjkPage ++
      [.println [.str ((stringsRepeat (utf8 "萌") 667).take 2000 ++ truncationMarker)]] := by
  have hlen : (stringsRepeat (utf8 "萌") 667).length = 2001 := by
    rw [stringsRepeat_length]; decide
  have hne : stringsRepeat (utf8 "萌") 667 ≠ [] := by
    intro h; rw [h] at hlen; simp at hlen
  constructor
  · rw [runeCount_stringsRepeat]
    decide
  · rw [printPageContent_content cjkPage _ [] (by decide) rfl hne]
    simp only [hlen]
    rfl

/-- C2, amended: for every page with a title and a first revision whose content
is not empty, a content of more than 2000 characters is rendered as exactly its
first 2000 characters followed by the truncation marker, and a content of 2000
characters or fewer is rendered unmodified.  This is stated for content made
of single-byte characters and for content of at most 2000 bytes; longer
content with multi-byte characters is left out. -/
theorem printPageContent_truncation (page : Page) (r : Revision) (rest : List Revision)
    (hT : page.Title ≠ []) (hR : page.Revisions = r :: rest) (hC : r.Content ≠ [])
    (hB : (∀ c ∈ r.Content, c.toNat < 128) ∨ r.Content.length ≤ 2000) :
    (2000 < runeCount r.Content →
      ∃ first tail, r.Content = first ++ tail ∧ runeCount first = 2000 ∧
        printPageContent page
          = pageHeader page ++ [.println [.str (first ++ truncationMarker)]]) ∧
    (runeCount r.Content ≤ 2000 →
      printPageContent page = pageHeader page ++ [.println [.str r.Content]]) := by
  rw [printPageContent_content page r rest hT hR hC]
  have hle := runeCount_le_length r.Content
  rcases hB with hB | hB
  · have hcount := runeCount_single_byte r.Content hB
    constructor
    · intro h
      have hlen : 2000 < r.Content.length := by omega
      refine ⟨r.Content.take 2000, r.Content.drop 2000, (List.take_append_drop _ _).symm,
        ?_, ?_⟩
      · rw [runeCount_single_byte _ (fun c hc => hB c (List.mem_of_mem_take hc)),
          List.length_take]
        omega
      · rw [if_pos hlen]
    · intro h
      rw [if_neg (by omega)]
  · constructor
    · intro h
      omega
    · intro _
      rw [if_neg (by omega)]

/-- Witness for the amended C2: the page `L` with 2001 characters `a`, which is
cut, and the page `T` with content `abc`, which is not. -/
theorem printPageContent_truncation_witness :
    (∃ first tail, List.replicate 2001 (97 : UInt8) = first ++ tail ∧ runeCount first = 2000 ∧
      printPageContent longPage
        = pageHeader longPage ++ [.println [.str (first ++ truncationMarker)]]) ∧
    printPageContent shortPage = pageHeader shortPage ++ [.println [.str (utf8 "abc")]] :=
  ⟨(printPageContent_truncation longPage ⟨[], [], List.replicate 2001 97⟩ [] (by decide) rfl
      (by simp)
      (Or.inl fun c hc => by rw [List.eq_of_mem_replicate hc]; decide)).1
      (by rw [runeCount_single_byte _
            (fun c hc => by rw [List.eq_of_mem_replicate hc]; decide)]
          simp),
    (printPageContent_truncation shortPage ⟨[], [], utf8 "abc"⟩ [] (by decide) rfl
      (by decide) (Or.inr (by decide))).2 (by decide)⟩

/-! ## The client operations -/

theorem makeRequest_ok (m : MoegirlClient) (params : Values) (resp : HttpResponse)
    (hget : m.client (requestURL params) = .ok resp) (hstatus : resp.StatusCode = 200) :
    m.makeRequest params = ([.get (requestURL params)], .ok resp) := by
  simp only [requestURL] at hget
  simp only [MoegirlClient.makeRequest, requestURL, hget]
  simp [hstatus]

theorem makeRequest_status (m : MoegirlClient) (params : Values) (resp : HttpResponse)
    (hget : m.client (requestURL params) = .ok resp) (hstatus : resp.StatusCode ≠ 200) :
    m.makeRequest params = ([.get (requestURL params)],
      .error (.errorf (utf8 "API请求失败，状态码: " ++ formatInt resp.StatusCode))) := by
  simp only [requestURL] at hget
  simp only [MoegirlClient.makeRequest, requestURL, hget]
  simp [hstatus]

theorem makeRequest_failed (m : MoegirlClient) (params : Values) (e : GoString)
    (hget : m.client (requestURL params) = .error e) :
    m.makeRequest params = ([.get (requestURL params)], .error (.httpGet e)) := by
  simp only [requestURL] at hget
  simp only [MoegirlClient.makeRequest, requestURL, hget]

theorem kind_protocol (code : Int) :
    (GoError.errorf (utf8 "API请求失败，状态码: " ++ formatInt code)).kind
      = some .ProtocolError := by
  have hhead : ∀ x : GoString, (utf8 "API请求失败，状态码: " ++ x).head? = some 65 := by
    intro x
    rw [List.head?_append]
    have : (utf8 "API请求失败，状态码: ").head? = some 65 := by decide
    rw [this]; rfl
  have h1 : utf8 "API请求失败，状态码: " ++ formatInt code ≠ utf8 "未找到搜索结果" := by
    intro h
    have := congrArg List.head? h
    rw [hhead] at this
    exact absurd this (by decide)
  have h2 : utf8 "API请求失败，状态码: " ++ formatInt code ≠ utf8 "未找到页面" := by
    intro h
    have := congrArg List.head? h
    rw [hhead] at this
    exact absurd this (by decide)
  have h3 : utf8 "API请求失败，状态码: " ++ formatInt code ≠ utf8 "未找到页面内容" := by
    intro h
    have := congrArg List.head? h
    rw [hhead] at this
    exact absurd this (by decide)
  have h4 : (utf8 "API请求失败，状态码: ").isPrefixOf
      (utf8 "API请求失败，状态码: " ++ formatInt code) = true :=
    List.isPrefixOf_iff_prefix.mpr (List.prefix_append _ _)
  simp only [GoError.kind, h1, h2, h3, h4, or_self, if_false, if_true]

/-- What `Search` returns once the response has status 200, its body was read
and the decoder accepted it. -/
theorem Search_decoded (m : MoegirlClient) (w : World) (query : GoString) (limit : Int)
    (resp : HttpResponse) (body : GoString) (apiResp : APIResponse)
    (hget : m.client (requestURL (searchParams query limit)) = .ok resp)
    (hstatus : resp.StatusCode = 200) (hbody : resp.Body = .ok body)
    (hjson : w.jsonUnmarshal body = .ok apiResp) :
    m.Search w query limit =
      match apiResp.Query.bind (fun q => q.Search) with
      | some results =>
        { trace := [.get (requestURL (searchParams query limit))], value := some results,
          err := none }
      | none =>
        { trace := [.get (requestURL (searchParams query limit))], value := none,
          err := some (.errorf (utf8 "未找到搜索结果")) } := by
  simp only [MoegirlClient.Search, makeRequest_ok m _ resp hget hstatus, hbody, hjson]
  cases hq : apiResp.Query with
  | none => rfl
  | some q =>
    cases hs : q.Search with
    | none => simp [hs]
    | some results => simp [hs]

/-- C3: when the response to a search has status 200, a readable body and
decodes to a response whose `query` section carries a search list `results`
(of any length, the empty list included), `Search` returns exactly `results`,
in the same order, and no error. -/
theorem Search_returns_search_list (m : MoegirlClient) (w : World) (query : GoString)
    (limit : Int) (resp : HttpResponse) (body : GoString) (q : QueryResult)
    (results : List SearchResult)
    (hget : m.client (requestURL (searchParams query limit)) = .ok resp)
    (hstatus : resp.StatusCode = 200) (hbody : resp.Body = .ok body)
    (hjson : w.jsonUnmarshal body = .ok { Query := some q })
    (hsearch : q.Search = some results) :
    (m.Search w query limit).value = some results ∧ (m.Search w query limit).err = none := by
  rw [Search_decoded m w query limit resp body _ hget hstatus hbody hjson]
  simp [hsearch]

/-- Witness for C3: the world that answers 200 and decodes to two hits. -/
theorem Search_returns_search_list_witness :
    ((NewMoegirlClient (fixedWorld 200 sampleSearchResponse)).Search
        (fixedWorld 200 sampleSearchResponse) (utf8 "a") 5).value = some sampleHits ∧
    ((NewMoegirlClient (fixedWorld 200 sampleSearchResponse)).Search
        (fixedWorld 200 sampleSearchResponse) (utf8 "a") 5).err = none :=
  Search_returns_search_list (NewMoegirlClient (fixedWorld 200 sampleSearchResponse))
    (fixedWorld 200 sampleSearchResponse) (utf8 "a") 5 { StatusCode := 200, Body := .ok [] } []
    { Info := some { TotalHits := 2 }, Search := some sampleHits, Pages := none } sampleHits
    rfl rfl rfl rfl rfl

theorem Search_get_failed (m : MoegirlClient) (w : World) (query : GoString) (limit : Int)
    (e : GoString) (hget : m.client (requestURL (searchParams query limit)) = .error e) :
    m.Search w query limit =
      { trace := [.get (requestURL (searchParams query limit))], value := none,
        err := some (.httpGet e) } := by
  simp only [MoegirlClient.Search, makeRequest_failed m _ e hget]

theorem Search_status (m : MoegirlClient) (w : World) (query : GoString) (limit : Int)
    (resp : HttpResponse) (hget : m.client (requestURL (searchParams query limit)) = .ok resp)
    (hstatus : resp.StatusCode ≠ 200) :
    m.Search w query limit =
      { trace := [.get (requestURL (searchParams query limit))], value := none,
        err := some (.errorf (utf8 "API请求失败，状态码: " ++ formatInt resp.StatusCode)) } := by
  simp only [MoegirlClient.Search, makeRequest_status m _ resp hget hstatus]

theorem Search_read_failed (m : MoegirlClient) (w : World) (query : GoString) (limit : Int)
    (resp : HttpResponse) (e : GoString)
    (hget : m.client (requestURL (searchParams query limit)) = .ok resp)
    (hstatus : resp.StatusCode = 200) (hbody : resp.Body = .error e) :
    m.Search w query limit =
      { trace := [.get (requestURL (searchParams query limit))], value := none,
        err := some (.readAll e) } := by
  simp only [MoegirlClient.Search, makeRequest_ok m _ resp hget hstatus, hbody]

theorem Search_decode_failed (m : MoegirlClient) (w : World) (query : GoString) (limit : Int)
    (resp : HttpResponse) (body e : GoString)
    (hget : m.client (requestURL (searchParams query limit)) = .ok resp)
    (hstatus : resp.StatusCode = 200) (hbody : resp.Body = .ok body)
    (hjson : w.jsonUnmarshal body = .error e) :
    m.Search w query limit =
      { trace := [.get (requestURL (searchParams query limit))], value := none,
        err := some (.unmarshal e) } := by
  simp only [MoegirlClient.Search, makeRequest_ok m _ resp hget hstatus, hbody, hjson]

/-- C4: `Search` returns a not-found error exactly when the response was
received with status 200, read and decoded, and the decoded response lacks the
`query` section or the `search` section inside it; it then returns no results
and the error made by `fmt.Errorf("未找到搜索结果")`.  In every other case, in
particular whenever the search section is present, the error is not a
not-found error. -/
theorem Search_not_found_iff (m : MoegirlClient) (w : World) (query : GoString)
    (limit : Int) :
    ((m.Search w query limit).err.bind GoError.kind = some .NotFoundError ↔
      ∃ resp body apiResp,
        m.client (requestURL (searchParams query limit)) = .ok resp ∧
        resp.StatusCode = 200 ∧ resp.Body = .ok body ∧
        w.jsonUnmarshal body = .ok apiResp ∧
        (apiResp.Query = none ∨ ∃ q, apiResp.Query = some q ∧ q.Search = none)) ∧
    ((m.Search w query limit).err.bind GoError.kind = some .NotFoundError →
      (m.Search w query limit).value = none ∧
      (m.Search w query limit).err = some (.errorf (utf8 "未找到搜索结果"))) := by
  have hk : (GoError.errorf (utf8 "未找到搜索结果")).kind = some .NotFoundError := by decide
  have back : (∃ resp body apiResp,
        m.client (requestURL (searchParams query limit)) = .ok resp ∧
        resp.StatusCode = 200 ∧ resp.Body = .ok body ∧
        w.jsonUnmarshal body = .ok apiResp ∧
        (apiResp.Query = none ∨ ∃ q, apiResp.Query = some q ∧ q.Search = none)) →
      (m.Search w query limit).value = none ∧
      (m.Search w query limit).err = some (.errorf (utf8 "未找到搜索结果")) := by
    rintro ⟨resp, body, apiResp, hget, hstatus, hbody, hjson, hlack⟩
    rw [Search_decoded m w query limit resp body apiResp hget hstatus hbody hjson]
    rcases hlack with hq | ⟨q, hq, hs⟩
    · rw [hq]; exact ⟨rfl, rfl⟩
    · rw [hq, Option.some_bind, hs]; exact ⟨rfl, rfl⟩
  have forth : (m.Search w query limit).err.bind GoError.kind = some .NotFoundError →
      ∃ resp body apiResp,
        m.client (requestURL (searchParams query limit)) = .ok resp ∧
        resp.StatusCode = 200 ∧ resp.Body = .ok body ∧
        w.jsonUnmarshal body = .ok apiResp ∧
        (apiResp.Query = none ∨ ∃ q, apiResp.Query = some q ∧ q.Search = none) := by
    intro h
    cases hget : m.client (requestURL (searchParams query limit)) with
    | error e =>
      rw [Search_get_failed m w query limit e hget] at h
      exact absurd h (by simp [GoError.kind])
    | ok resp =>
      by_cases hstatus : resp.StatusCode = 200
      · cases hbody : resp.Body with
        | error e =>
          rw [Search_read_failed m w query limit resp e hget hstatus hbody] at h
          exact absurd h (by simp [GoError.kind])
        | ok body =>
          cases hjson : w.jsonUnmarshal body with
          | error e =>
            rw [Search_decode_failed m w query limit resp body e hget hstatus hbody hjson] at h
            exact absurd h (by simp [GoError.kind])
          | ok apiResp =>
            refine ⟨resp, body, apiResp, rfl, hstatus, hbody, hjson, ?_⟩
            cases hq : apiResp.Query with
            | none => exact Or.inl rfl
            | some q =>
              cases hs : q.Search with
              | none => exact Or.inr ⟨q, rfl, hs⟩
              | some results =>
                rw [Search_decoded m w query limit resp body apiResp hget hstatus hbody hjson,
                  hq, Option.some_bind, hs] at h
                exact absurd h (by simp)
      · rw [Search_status m w query limit resp hget hstatus] at h
        have h' : (GoError.errorf
            (utf8 "API请求失败，状态码: " ++ formatInt resp.StatusCode)).kind
              = some ErrorKind.NotFoundError := h
        rw [kind_protocol] at h'
        exact absurd h' (by decide)
  refine ⟨⟨forth, fun hx => ?_⟩, fun h => back (forth h)⟩
  rw [(back hx).2]
  exact hk

/-- Witness for C4: the world that answers 200 and decodes to a response
without a `query` section. -/
theorem Search_not_found_iff_witness :
    ((NewMoegirlClient (fixedWorld 200 emptyResponse)).Search
        (fixedWorld 200 emptyResponse) (utf8 "a") 5).value = none ∧
    ((NewMoegirlClient (fixedWorld 200 emptyResponse)).Search
        (fixedWorld 200 emptyResponse) (utf8 "a") 5).err
      = some (.errorf (utf8 "未找到搜索结果")) :=
  (Search_not_found_iff (NewMoegirlClient (fixedWorld 200 emptyResponse))
    (fixedWorld 200 emptyResponse) (utf8 "a") 5).2 (by decide)

/-- What `GetPageByTitle` returns once the response has status 200, its body was
read and the decoder accepted it. -/
theorem GetPageByTitle_decoded (m : MoegirlClient) (w : World) (title : GoString)
    (resp : HttpResponse) (body : GoString) (apiResp : APIResponse)
    (hget : m.client (requestURL (titleParams title)) = .ok resp)
    (hstatus : resp.StatusCode = 200) (hbody : resp.Body = .ok body)
    (hjson : w.jsonUnmarshal body = .ok apiResp) :
    m.GetPageByTitle w title =
      match apiResp.Query.bind (fun q => q.Pages) with
      | none =>
        { trace := [.get (requestURL (titleParams title))], value := none,
          err := some (.errorf (utf8 "未找到页面")) }
      | some [] =>
        { trace := [.get (requestURL (titleParams title))], value := none,
          err := some (.errorf (utf8 "未找到页面内容")) }
      | some (entry :: _) =>
        { trace := [.get (requestURL (titleParams title))], value := some entry.2,
          err := none } := by
  simp only [MoegirlClient.GetPageByTitle, makeRequest_ok m _ resp hget hstatus, hbody, hjson]
  cases hq : apiResp.Query with
  | none => rfl
  | some q =>
    cases hs : q.Pages with
    | none => simp [hs]
    | some entries =>
      cases entries with
      | nil => simp [hs]
      | cons entry more => simp [hs]

theorem GetPageByTitle_status (m : MoegirlClient) (w : World) (title : GoString)
    (resp : HttpResponse) (hget : m.client (requestURL (titleParams title)) = .ok resp)
    (hstatus : resp.StatusCode ≠ 200) :
    m.GetPageByTitle w title =
      { trace := [.get (requestURL (titleParams title))], value := none,
        err := some (.errorf (utf8 "API请求失败，状态码: " ++ formatInt resp.StatusCode)) } := by
  simp only [MoegirlClient.GetPageByTitle, makeRequest_status m _ resp hget hstatus]

/-- What `GetPageByID` returns once the response has status 200, its body was
read and the decoder accepted it. -/
theorem GetPageByID_decoded (m : MoegirlClient) (w : World) (pageID : Int)
    (resp : HttpResponse) (body : GoString) (apiResp : APIResponse)
    (hget : m.client (requestURL (idParams pageID)) = .ok resp)
    (hstatus : resp.StatusCode = 200) (hbody : resp.Body = .ok body)
    (hjson : w.jsonUnmarshal body = .ok apiResp) :
    m.GetPageByID w pageID =
      match apiResp.Query.bind (fun q => q.Pages) with
      | none =>
        { trace := [.get (requestURL (idParams pageID))], value := none,
          err := some (.errorf (utf8 "未找到页面")) }
      | some [] =>
        { trace := [.get (requestURL (idParams pageID))], value := none,
          err := some (.errorf (utf8 "未找到页面内容")) }
      | some (entry :: _) =>
        { trace := [.get (requestURL (idParams pageID))], value := some entry.2,
          err := none } := by
  simp only [MoegirlClient.GetPageByID, makeRequest_ok m _ resp hget hstatus, hbody, hjson]
  cases hq : apiResp.Query with
  | none => rfl
  | some q =>
    cases hs : q.Pages with
    | none => simp [hs]
    | some entries =>
      cases entries with
      | nil => simp [hs]
      | cons entry more => simp [hs]

theorem GetPageByID_status (m : MoegirlClient) (w : World) (pageID : Int)
    (resp : HttpResponse) (hget : m.client (requestURL (idParams pageID)) = .ok resp)
    (hstatus : resp.StatusCode ≠ 200) :
    m.GetPageByID w pageID =
      { trace := [.get (requestURL (idParams pageID))], value := none,
        err := some (.errorf (utf8 "API请求失败，状态码: " ++ formatInt resp.StatusCode)) } := by
  simp only [MoegirlClient.GetPageByID, makeRequest_status m _ resp hget hstatus]

/-- C5: when the response to a lookup by title or by id has status 200, a
readable body and decodes to a response whose pages mapping has exactly one
entry, the lookup returns that entry's page (title, page id, namespace and
revisions all equal) and no error. -/
theorem GetPage_single_entry (m : MoegirlClient) (w : World) (resp : HttpResponse)
    (body : GoString) (q : QueryResult) (key : GoString) (page : Page)
    (hstatus : resp.StatusCode = 200) (hbody : resp.Body = .ok body)
    (hjson : w.jsonUnmarshal body = .ok { Query := some q })
    (hpages : q.Pages = some [(key, page)]) :
    (∀ title : GoString, m.client (requestURL (titleParams title)) = .ok resp →
      (m.GetPageByTitle w title).value = some page ∧ (m.GetPageByTitle w title).err = none) ∧
    (∀ pageID : Int, m.client (requestURL (idParams pageID)) = .ok resp →
      (m.GetPageByID w pageID).value = some page ∧ (m.GetPageByID w pageID).err = none) := by
  constructor
  · intro title hget
    rw [GetPageByTitle_decoded m w title resp body _ hget hstatus hbody hjson]
    simp [hpages]
  · intro pageID hget
    rw [GetPageByID_decoded m w pageID resp body _ hget hstatus hbody hjson]
    simp [hpages]

/-- Witness for C5: the world that answers 200 and decodes to the mapping
`"7" ↦ shortPage`, looked up by the title `T`. -/
theorem GetPage_single_entry_witness :
    ((NewMoegirlClient (fixedWorld 200 samplePageResponse)).GetPageByTitle
        (fixedWorld 200 samplePageResponse) (utf8 "T")).value = some shortPage ∧
    ((NewMoegirlClient (fixedWorld 200 samplePageResponse)).GetPageByTitle
        (fixedWorld 200 samplePageResponse) (utf8 "T")).err = none :=
  (GetPage_single_entry (NewMoegirlClient (fixedWorld 200 samplePageResponse))
    (fixedWorld 200 samplePageResponse) { StatusCode := 200, Body := .ok [] } []
    { Info := none, Search := none, Pages := some [(utf8 "7", shortPage)] } (utf8 "7") shortPage
    rfl rfl rfl rfl).1 (utf8 "T") rfl

/-- C6: for a received and decoded response, when the pages mapping is absent
(no `query` section or no `pages` section) or empty, both lookups return no
page and a not-found error; when the mapping has at least one entry they
return no error and a page that is one of the values of the mapping. -/
theorem GetPage_not_found_or_entry (m : MoegirlClient) (w : World) (resp : HttpResponse)
    (body : GoString) (apiResp : APIResponse)
    (hstatus : resp.StatusCode = 200) (hbody : resp.Body = .ok body)
    (hjson : w.jsonUnmarshal body = .ok apiResp) :
    (∀ title : GoString, m.client (requestURL (titleParams title)) = .ok resp →
      ((apiResp.Query = none ∨
          ∃ q, apiResp.Query = some q ∧ (q.Pages = none ∨ q.Pages = some [])) →
        (m.GetPageByTitle w title).value = none ∧
        (m.GetPageByTitle w title).err.bind GoError.kind = some .NotFoundError) ∧
      (∀ q entries, apiResp.Query = some q → q.Pages = some entries → entries ≠ [] →
        (m.GetPageByTitle w title).err = none ∧
        ∃ page, (m.GetPageByTitle w title).value = some page ∧
          page ∈ entries.map Prod.snd)) ∧
    (∀ pageID : Int, m.client (requestURL (idParams pageID)) = .ok resp →
      ((apiResp.Query = none ∨
          ∃ q, apiResp.Query = some q ∧ (q.Pages = none ∨ q.Pages = some [])) →
        (m.GetPageByID w pageID).value = none ∧
        (m.GetPageByID w pageID).err.bind GoError.kind = some .NotFoundError) ∧
      (∀ q entries, apiResp.Query = some q → q.Pages = some entries → entries ≠ [] →
        (m.GetPageByID w pageID).err = none ∧
        ∃ page, (m.GetPageByID w pageID).value = some page ∧
          page ∈ entries.map Prod.snd)) := by
  have k1 : (GoError.errorf (utf8 "未找到页面")).kind = some .NotFoundError := by decide
  have k2 : (GoError.errorf (utf8 "未找到页面内容")).kind = some .NotFoundError := by decide
  constructor
  · intro title hget
    rw [GetPageByTitle_decoded m w title resp body _ hget hstatus hbody hjson]
    constructor
    · rintro (hq | ⟨q, hq, hp | hp⟩)
      · rw [hq]; exact ⟨rfl, k1⟩
      · rw [hq, Option.some_bind, hp]; exact ⟨rfl, k1⟩
      · rw [hq, Option.some_bind, hp]; exact ⟨rfl, k2⟩
    · intro q entries hq hp hne
      cases entries with
      | nil => exact absurd rfl hne
      | cons entry more =>
        rw [hq, Option.some_bind, hp]
        exact ⟨rfl, entry.2, rfl, by simp⟩
  · intro pageID hget
    rw [GetPageByID_decoded m w pageID resp body _ hget hstatus hbody hjson]
    constructor
    · rintro (hq | ⟨q, hq, hp | hp⟩)
      · rw [hq]; exact ⟨rfl, k1⟩
      · rw [hq, Option.some_bind, hp]; exact ⟨rfl, k1⟩
      · rw [hq, Option.some_bind, hp]; exact ⟨rfl, k2⟩
    · intro q entries hq hp hne
      cases entries with
      | nil => exact absurd rfl hne
      | cons entry more =>
        rw [hq, Option.some_bind, hp]
        exact ⟨rfl, entry.2, rfl, by simp⟩

/-- Witness for C6: the world that answers 200 and decodes to a response
without a `query` section, looked up by the id 7. -/
theorem GetPage_not_found_or_entry_witness :
    ((NewMoegirlClient (fixedWorld 200 emptyResponse)).GetPageByID
        (fixedWorld 200 emptyResponse) 7).value = none ∧
    ((NewMoegirlClient (fixedWorld 200 emptyResponse)).GetPageByID
        (fixedWorld 200 emptyResponse) 7).err.bind GoError.kind = some .NotFoundError :=
  ((GetPage_not_found_or_entry (NewMoegirlClient (fixedWorld 200 emptyResponse))
    (fixedWorld 200 emptyResponse) { StatusCode := 200, Body := .ok [] } [] emptyResponse
    rfl rfl rfl).2 7 rfl).1 (Or.inl rfl)

/-- C7: when the response has a status other than 200, each of `Search`,
`GetPageByTitle` and `GetPageByID` returns no value and the error made by
`fmt.Errorf("API请求失败，状态码: %d", status)`, whatever the body of the response
is.  That error is a protocol error, so it is none of the transport, decode and
not-found errors. -/
theorem non200_protocol_error (m : MoegirlClient) (w : World) (resp : HttpResponse)
    (hstatus : resp.StatusCode ≠ 200) :
    (∀ (query : GoString) (limit : Int),
      m.client (requestURL (searchParams query limit)) = .ok resp →
      (m.Search w query limit).value = none ∧
      (m.Search w query limit).err
        = some (.errorf (utf8 "API请求失败，状态码: " ++ formatInt resp.StatusCode)) ∧
      (m.Search w query limit).err.bind GoError.kind = some .ProtocolError) ∧
    (∀ title : GoString, m.client (requestURL (titleParams title)) = .ok resp →
      (m.GetPageByTitle w title).value = none ∧
      (m.GetPageByTitle w title).err
        = some (.errorf (utf8 "API请求失败，状态码: " ++ formatInt resp.StatusCode)) ∧
      (m.GetPageByTitle w title).err.bind GoError.kind = some .ProtocolError) ∧
    (∀ pageID : Int, m.client (requestURL (idParams pageID)) = .ok resp →
      (m.GetPageByID w pageID).value = none ∧
      (m.GetPageByID w pageID).err
        = some (.errorf (utf8 "API请求失败，状态码: " ++ formatInt resp.StatusCode)) ∧
      (m.GetPageByID w pageID).err.bind GoError.kind = some .ProtocolError) := by
  refine ⟨?_, ?_, ?_⟩
  · intro query limit hget
    rw [Search_status m w query limit resp hget hstatus]
    exact ⟨rfl, rfl, kind_protocol _⟩
  · intro title hget
    rw [GetPageByTitle_status m w title resp hget hstatus]
    exact ⟨rfl, rfl, kind_protocol _⟩
  · intro pageID hget
    rw [GetPageByID_status m w pageID resp hget hstatus]
    exact ⟨rfl, rfl, kind_protocol _⟩

/-- Witness for C7: the world that answers 404, with a body that would decode
to two hits. -/
theorem non200_protocol_error_witness :
    ((NewMoegirlClient (fixedWorld 404 sampleSearchResponse)).Search
        (fixedWorld 404 sampleSearchResponse) (utf8 "a") 5).value = none ∧
    ((NewMoegirlClient (fixedWorld 404 sampleSearchResponse)).Search
        (fixedWorld 404 sampleSearchResponse) (utf8 "a") 5).err
      = some (.errorf (utf8 "API请求失败，状态码: " ++ formatInt 404)) ∧
    ((NewMoegirlClient (fixedWorld 404 sampleSearchResponse)).Search
        (fixedWorld 404 sampleSearchResponse) (utf8 "a") 5).err.bind GoError.kind
      = some .ProtocolError :=
  (non200_protocol_error (NewMoegirlClient (fixedWorld 404 sampleSearchResponse))
    (fixedWorld 404 sampleSearchResponse) { StatusCode := 404, Body := .ok [] }
    (by decide)).1 (utf8 "a") 5 rfl

/-! ## The request URLs -/

theorem digit_kept : ∀ d : Nat, d < 10 →
    (48 + d).toUInt8 ≠ 32 ∧ shouldEscape (48 + d).toUInt8 = false := by
  decide

theorem digitsAux_kept (fuel : Nat) :
    ∀ (n : Nat) (acc : GoString), (∀ c ∈ acc, c ≠ 32 ∧ shouldEscape c = false) →
      ∀ c ∈ digitsAux fuel n acc, c ≠ 32 ∧ shouldEscape c = false := by
  induction fuel with
  | zero => intro n acc hacc c hc; exact hacc c (by simpa [digitsAux] using hc)
  | succ fuel ih =>
    intro n acc hacc c hc
    have hacc' : ∀ c ∈ (48 + n % 10).toUInt8 :: acc, c ≠ 32 ∧ shouldEscape c = false := by
      intro c hc
      rcases List.mem_cons.mp hc with e | e
      · rw [e]; exact digit_kept (n % 10) (Nat.mod_lt _ (by decide))
      · exact hacc c e
    unfold digitsAux at hc
    by_cases hz : n / 10 = 0
    · simp only [hz, if_true] at hc
      exact hacc' c hc
    · simp only [hz, if_false] at hc
      exact ih (n / 10) _ hacc' c hc

theorem formatInt_kept (i : Int) : ∀ c ∈ formatInt i, c ≠ 32 ∧ shouldEscape c = false := by
  intro c hc
  unfold formatInt at hc
  by_cases hneg : i < 0
  · simp only [hneg, if_true] at hc
    rcases List.mem_cons.mp hc with e | e
    · rw [e]; decide
    · exact digitsAux_kept _ _ [] (by simp) c e
  · simp only [hneg, if_false] at hc
    exact digitsAux_kept _ _ [] (by simp) c hc

theorem QueryEscape_kept (s : GoString) (h : ∀ c ∈ s, c ≠ 32 ∧ shouldEscape c = false) :
    QueryEscape s = s := by
  induction s with
  | nil => rfl
  | cons x xs ih =>
    have hx := h x (by simp)
    have hxs : ∀ c ∈ xs, c ≠ 32 ∧ shouldEscape c = false := fun c hc => h c (by simp [hc])
    have := ih hxs
    unfold QueryEscape at this ⊢
    simp [List.flatMap_cons, hx.1, hx.2, this]

theorem QueryEscape_formatInt (i : Int) : QueryEscape (formatInt i) = formatInt i :=
  QueryEscape_kept _ (formatInt_kept i)

theorem searchParams_entries (query : GoString) (limit : Int) :
    searchParams query limit =
      { entries := [(utf8 "action", [utf8 "query"]), (utf8 "format", [utf8 "json"]),
          (utf8 "list", [utf8 "search"]), (utf8 "srsearch", [query]),
          (utf8 "srlimit", [formatInt limit])] } := rfl

theorem searchParams_Encode (query : GoString) (limit : Int) :
    (searchParams query limit).Encode =
      utf8 "action=query&format=json&list=search&srlimit=" ++ formatInt limit ++
        utf8 "&srsearch=" ++ QueryEscape query := by
  rw [searchParams_entries]
  simp only [Values.Encode, List.map]
  have hs : sortKeys [utf8 "action", utf8 "format", utf8 "list", utf8 "srsearch",
      utf8 "srlimit"]
      = [utf8 "action", utf8 "format", utf8 "list", utf8 "srlimit", utf8 "srsearch"] := by
    decide
  have q1 : QueryEscape (utf8 "action") = utf8 "action" := by decide
  have q2 : QueryEscape (utf8 "query") = utf8 "query" := by decide
  have q3 : QueryEscape (utf8 "format") = utf8 "format" := by decide
  have q4 : QueryEscape (utf8 "json") = utf8 "json" := by decide
  have q5 : QueryEscape (utf8 "list") = utf8 "list" := by decide
  have q6 : QueryEscape (utf8 "search") = utf8 "search" := by decide
  have q7 : QueryEscape (utf8 "srlimit") = utf8 "srlimit" := by decide
  have q8 : QueryEscape (utf8 "srsearch") = utf8 "srsearch" := by decide
  have e1 : utf8 "action=query&format=json&list=search&srlimit="
      = utf8 "action" ++ 61 :: (utf8 "query" ++ 38 :: (utf8 "format" ++ 61 :: (utf8 "json" ++
          38 :: (utf8 "list" ++ 61 :: (utf8 "search" ++ 38 :: (utf8 "srlimit" ++ [61])))))) := by
    decide
  have e2 : utf8 "&srsearch=" = 38 :: (utf8 "srsearch" ++ [61]) := by decide
  rw [hs, e1, e2]
  simp only [List.foldl, q1, q2, q3, q4, q5, q6, q7, q8, QueryEscape_formatInt]
  simp

theorem makeRequest_trace (m : MoegirlClient) (params : Values) :
    (m.makeRequest params).1 = [.get (requestURL params)] := by
  cases hget : m.client (requestURL params) with
  | error e => rw [makeRequest_failed m params e hget]
  | ok resp =>
    by_cases hstatus : resp.StatusCode = 200
    · rw [makeRequest_ok m params resp hget hstatus]
    · rw [makeRequest_status m params resp hget hstatus]

theorem Search_trace (m : MoegirlClient) (w : World) (query : GoString) (limit : Int) :
    (m.Search w query limit).trace = [.get (requestURL (searchParams query limit))] := by
  have h := makeRequest_trace m (searchParams query limit)
  unfold MoegirlClient.Search
  generalize m.makeRequest (searchParams query limit) = mr at h ⊢
  obtain ⟨tr, res⟩ := mr
  simp only at h
  subst h
  cases res with
  | error err => rfl
  | ok resp =>
    simp only
    repeat' split
    all_goals rfl

/-- The bytes on the wire for `Search("a", 5)`: `Values.Encode` writes the
parameters sorted by key, so `srlimit` comes before `srsearch`. -/
theorem Search_wire_sample :
    ((NewMoegirlClient (fixedWorld 200 sampleSearchResponse)).Search
        (fixedWorld 200 sampleSearchResponse) (utf8 "a") 5).trace
      = [.get (utf8 "https://zh.moegirl.org.cn/api.php?action=query&format=json&list=search&srlimit=5&srsearch=a")] := by
  decide

theorem atoiFastLoop_nondigit (s : GoString) (h : s.all isDigit = false) :
    ∀ n : Int, atoiFastLoop s n = none := by
  induction s with
  | nil => simp at h
  | cons c cs ih =>
    intro n
    by_cases hc : isDigit c = true
    · have hcs : cs.all isDigit = false := by
        rw [List.all_cons, hc, Bool.true_and] at h
        exact h
      simp only [atoiFastLoop, hc, if_true]
      exact ih hcs _
    · simp only [atoiFastLoop, hc, if_false, Bool.false_eq_true]

theorem parseUintLoop_nondigit (s : GoString) (h : s.all isDigit = false) :
    ∀ n : Nat, ∃ range, parseUintLoop s n = .error range := by
  induction s with
  | nil => simp at h
  | cons c cs ih =>
    intro n
    by_cases hc : isDigit c = true
    · have hcs : cs.all isDigit = false := by
        rw [List.all_cons, hc, Bool.true_and] at h
        exact h
      simp only [parseUintLoop, hc, if_true]
      by_cases h1 : n ≥ 1844674407370955162
      · exact ⟨true, by rw [if_pos h1]⟩
      · rw [if_neg h1]
        by_cases h2 : n * 10 + (c.toNat - 48) > 18446744073709551615
        · exact ⟨true, by rw [if_pos h2]⟩
        · rw [if_neg h2]
          exact ih hcs _
    · exact ⟨false, by simp only [parseUintLoop, hc, if_false, Bool.false_eq_true]⟩

theorem signedRange_maxVal (neg : Bool) :
    signedRange neg 18446744073709551615 = .error true := by
  cases neg <;> decide

/-- `ParseInt` fails on every string that is not an optional sign followed by
digits. -/
theorem ParseInt_not_decimal (x : GoString) (h : isDecimal x = false) :
    ∃ range, ParseInt x = .error range := by
  unfold isDecimal at h
  simp only [Bool.and_eq_false_iff, decide_eq_false_iff_not, ne_eq, not_not] at h
  unfold ParseInt
  by_cases hx : x = []
  · exact ⟨false, by rw [if_pos hx]⟩
  · rw [if_neg hx]
    simp only
    rcases h with h | h
    · rw [h]
      exact ⟨false, by simp [ParseUint]⟩
    · have hne : (if x.head? = some 43 ∨ x.head? = some 45 then List.drop 1 x else x) ≠ [] := by
        intro e
        rw [e] at h
        simp at h
      obtain ⟨range, hr⟩ := parseUintLoop_nondigit _ h 0
      have hu : ParseUint (if x.head? = some 43 ∨ x.head? = some 45 then List.drop 1 x else x)
          = .error range := by
        unfold ParseUint
        rw [if_neg hne, hr]
      rw [hu]
      cases range with
      | false => exact ⟨false, rfl⟩
      | true => exact ⟨true, signedRange_maxVal _⟩

/-- `Atoi` fails on every string that is not an optional sign followed by
digits; the error is a syntax error or, when the digits before the offending
byte already overflow, a range error. -/
theorem Atoi_not_decimal (x : GoString) (h : isDecimal x = false) :
    ∃ range, Atoi x = .error (.atoi x range) := by
  unfold Atoi
  by_cases hfast : 0 < x.length ∧ x.length < 19
  · rw [if_pos hfast]
    have hb : (if x.head? = some 45 ∨ x.head? = some 43 then List.drop 1 x else x)
        = (if x.head? = some 43 ∨ x.head? = some 45 then List.drop 1 x else x) := by
      simp only [or_comm]
    unfold isDecimal at h
    simp only [Bool.and_eq_false_iff, decide_eq_false_iff_not, ne_eq, not_not] at h
    simp only [hb]
    rcases h with h | h
    · exact ⟨false, by rw [h]; rfl⟩
    · refine ⟨false, ?_⟩
      rw [atoiFastLoop_nondigit _ h 0]
      by_cases hl :
          (if x.head? = some 43 ∨ x.head? = some 45 then List.drop 1 x else x).length < 1
      · rw [if_pos hl]
      · rw [if_neg hl]
  · rw [if_neg hfast]
    obtain ⟨range, hr⟩ := ParseInt_not_decimal x h
    exact ⟨range, by rw [hr]⟩

theorem main_viewid_rejected (w : World) (prog x : GoString) (more : List GoString)
    (e : GoError) (h : Atoi x = .error e) :
    main w (prog :: utf8 "viewid" :: x :: more)
      = [.printf (utf8 "页面ID必须是数字: %v\n") [.err e]] := by
  have h1 : utf8 "viewid" ≠ utf8 "search" := by decide
  have h2 : utf8 "viewid" ≠ utf8 "view" := by decide
  simp only [main, h1, h2, if_false, if_true, h]

theorem main_search_default (w : World) (prog q : GoString) :
    main w [prog, utf8 "search", q] =
      [.printf (utf8 "正在搜索: %s\n") [.str q]] ++
        ((NewMoegirlClient w).Search w q 10).trace ++
        (match ((NewMoegirlClient w).Search w q 10).err with
          | some err => [.printf (utf8 "搜索失败: %v\n") [.err err]]
          | none => printSearchResults (((NewMoegirlClient w).Search w q 10).value.getD [])) := by
  simp only [main, if_true]

/-- Two rejected `viewid` arguments: `abc` is a syntax error, and in
`99999999999999999999a` the digits overflow before the `a` is reached, which
is a range error. -/
theorem main_viewid_samples :
    main (fixedWorld 200 samplePageResponse) [utf8 "moegirl", utf8 "viewid", utf8 "abc"]
      = [.printf (utf8 "页面ID必须是数字: %v\n") [.err (.atoi (utf8 "abc") false)]] ∧
    main (fixedWorld 200 samplePageResponse)
        [utf8 "moegirl", utf8 "viewid", utf8 "99999999999999999999a"]
      = [.printf (utf8 "页面ID必须是数字: %v\n")
          [.err (.atoi (utf8 "99999999999999999999a") true)]] := by
  decide

/-- C9: for every run whose command is `search`, `view` or `viewid` with no
argument after it, and for every `viewid <x>` in which `x` is not a decimal
integer, `main` prints one error message and performs no GET; and
`search <q>` without a limit argument calls `Search(q, 10)`: its request, with
`srlimit=10`, is the one GET of the run, and its result is what is printed. -/
theorem main_argument_validation (w : World) (prog : GoString) :
    main w [prog, utf8 "search"] = [.println [.str (utf8 "错误: 请提供搜索关键词")]] ∧
    main w [prog, utf8 "view"] = [.println [.str (utf8 "错误: 请提供页面标题")]] ∧
    main w [prog, utf8 "viewid"] = [.println [.str (utf8 "错误: 请提供页面ID")]] ∧
    (∀ (x : GoString) (more : List GoString), isDecimal x = false →
      (∃ range, main w (prog :: utf8 "viewid" :: x :: more)
        = [.printf (utf8 "页面ID必须是数字: %v\n") [.err (.atoi x range)]]) ∧
      ∀ url, Event.get url ∉ main w (prog :: utf8 "viewid" :: x :: more)) ∧
    (∀ q : GoString,
      main w [prog, utf8 "search", q] =
        [.printf (utf8 "正在搜索: %s\n") [.str q]] ++
          ((NewMoegirlClient w).Search w q 10).trace ++
          (match ((NewMoegirlClient w).Search w q 10).err with
            | some err => [.printf (utf8 "搜索失败: %v\n") [.err err]]
            | none =>
              printSearchResults (((NewMoegirlClient w).Search w q 10).value.getD [])) ∧
      ((NewMoegirlClient w).Search w q 10).trace =
        [.get (apiURL ++ utf8 "?" ++ (utf8 "action=query&format=json&list=search&srlimit=" ++
          utf8 "10" ++ utf8 "&srsearch=" ++ QueryEscape q))]) := by
  have h1 : utf8 "viewid" ≠ utf8 "search" := by decide
  have h2 : utf8 "viewid" ≠ utf8 "view" := by decide
  have h3 : utf8 "view" ≠ utf8 "search" := by decide
  refine ⟨?_, ?_, ?_, ?_, ?_⟩
  · simp only [main, if_true]
  · simp only [main, h3, if_false, if_true]
  · simp only [main, h1, h2, if_false, if_true]
  · intro x more hx
    obtain ⟨range, hr⟩ := Atoi_not_decimal x hx
    have hmain := main_viewid_rejected w prog x more _ hr
    refine ⟨⟨range, hmain⟩, ?_⟩
    intro url hmem
    rw [hmain] at hmem
    simp at hmem
  · intro q
    refine ⟨main_search_default w prog q, ?_⟩
    rw [Search_trace, requestURL, searchParams_Encode]
    rfl

/-- Witness for C9: `viewid abc`. -/
theorem main_argument_validation_witness :
    isDecimal (utf8 "abc") = false ∧
    (∃ range,
      main (fixedWorld 200 samplePageResponse) [utf8 "moegirl", utf8 "viewid", utf8 "abc"]
        = [.printf (utf8 "页面ID必须是数字: %v\n") [.err (.atoi (utf8 "abc") range)]]) :=
  ⟨by decide,
    ((main_argument_validation (fixedWorld 200 samplePageResponse) (utf8 "moegirl")).2.2.2.1
      (utf8 "abc") [] (by decide)).1⟩

end Moegirl
